import Mathlib

/-!
Verification of the MeshCore Panel aggregation core
(`custom_components/meshcore_panel/__init__.py`).

The Python code is shallowly embedded:
* Python `dict`s become association lists in insertion order (updating an
  existing key rewrites it in place, a new key is appended at the end),
  which is exactly Python's dict semantics; the well-formedness predicate
  `StoreWF` records the fact that a Python dict never holds two entries
  for the same key.
* Timestamps (`time.time()` values, `last_seen`, `last_advert`) are
  modelled as integers `Int`; the code only subtracts and compares them.
* Geographic coordinates are modelled as rationals `Rat`; the source only
  tests them for Python truthiness (`None`/`0` are falsy) and converts
  them with `float(...)`, which is the identity on numeric values.
* Optional attributes (`attrs.get(...)`) become `Option` values, with
  Python truthiness made explicit (`none` and `some 0` are falsy,
  the empty string is falsy).
* The Home Assistant service bus is modelled as a trace of emitted
  commands; an exception raised by a service call is modelled by the
  `SendOutcome` parameter of `sendGreeting`.
-/

/-! ### Association lists in Python-dict order -/

/-- Lookup in an association list (first match), i.e. Python `d.get(k)`. -/
def alookup (k : String) : List (String × α) → Option α
  | [] => none
  | (k', v) :: rest => if k = k' then some v else alookup k rest

/-- Python `d[k] = v`: rewrite an existing key in place, else append. -/
def setIn (k : String) (v : α) : List (String × α) → List (String × α)
  | [] => [(k, v)]
  | (k', v') :: rest => if k = k' then (k, v) :: rest else (k', v') :: setIn k v rest

/-- Python `s.lower()`: lower-case every character. -/
def strLower (s : String) : String :=
  String.mk (s.data.map Char.toLower)

/-- Python `s.startswith(pre)`. -/
def strStarts (s pre : String) : Bool :=
  pre.data.isPrefixOf s.data

/-- Helper for the Python substring test: does `pat` occur in `l`? -/
def containsAux (pat : List Char) : List Char → Bool
  | [] => pat.isEmpty
  | c :: rest => pat.isPrefixOf (c :: rest) || containsAux pat rest

/-- Python `pat in s` (substring test). -/
def strContains (s pat : String) : Bool :=
  containsAux pat.data s.data

/-- Python ascending comparison of two strings (lexicographic on code
points), as used by `sorted`. -/
def strLt (a b : String) : Bool :=
  go a.data b.data
where
  go : List Char → List Char → Bool
    | [], [] => false
    | [], _ :: _ => true
    | _ :: _, [] => false
    | x :: xs, y :: ys =>
        if x.toNat < y.toNat then true
        else if y.toNat < x.toNat then false
        else go xs ys

/-! ### Python truthiness for optional numeric attributes -/

/-- Truthiness of an optional rational: `None` and `0` are falsy. -/
def qTruthy : Option Rat → Bool
  | none => false
  | some q => q ≠ 0

/-- Truthiness of an optional integer: `None` and `0` are falsy. -/
def iTruthy : Option Int → Bool
  | none => false
  | some n => n ≠ 0

/-- Python `x or y` on optional rationals. -/
def pyOrQ (x y : Option Rat) : Option Rat :=
  if qTruthy x then x else y

/-! ### Link Store (`self.direct_links`) -/

/-- One half-edge value: `{"last_seen": ..., "count": ...}`. -/
structure LinkEdge where
  last_seen : Int
  count : Nat
deriving DecidableEq

/-- Inner dict: destination identity to half-edge. -/
abbrev Links := List (String × LinkEdge)

/-- Outer dict: source identity to its connection dict. -/
abbrev LinkStore := List (String × Links)

/-- `self.direct_links[a][b]`, when both keys exist. -/
def findLink (store : LinkStore) (a b : String) : Option LinkEdge :=
  match alookup a store with
  | none => none
  | some links => alookup b links

/-- `_record_direct_link(node_a, node_b, timestamp)`: create the inner dict
if absent, then insert the half-edge with count 1 or update it in place,
incrementing the count and setting `last_seen` to the timestamp. -/
def recordDirectLink (store : LinkStore) (node_a node_b : String) (ts : Int) : LinkStore :=
  let links := (alookup node_a store).getD []
  let links' :=
    match alookup node_b links with
    | some e => setIn node_b { last_seen := ts, count := e.count + 1 } links
    | none => setIn node_b { last_seen := ts, count := 1 } links
  setIn node_a links' store

/-- The loop body of `_process_rx_log_data`: for every consecutive pair of
the path, record the lower-cased identities in both directions. -/
def recordPairs (store : LinkStore) (nodes : List String) (ts : Int) : LinkStore :=
  match nodes with
  | a :: b :: rest =>
      recordPairs
        (recordDirectLink
          (recordDirectLink store (strLower a) (strLower b) ts)
          (strLower b) (strLower a) ts)
        (b :: rest) ts
  | _ => store

/-- `_process_rx_log_data`: ignore paths with fewer than 2 nodes, else
record every consecutive pair in both directions with the event time. -/
def processRxLogData (store : LinkStore) (path_nodes : List String) (ts : Int) : LinkStore :=
  if path_nodes.length < 2 then store
  else recordPairs store path_nodes ts

/-- The symmetry invariant of the Link Store: looking up `links[a][b]` and
`links[b][a]` gives the same answer (both absent, or both present with
equal `count` and `last_seen`). -/
def Symm (store : LinkStore) : Prop :=
  ∀ a b, findLink store a b = findLink store b a

/-- A Python dict never holds two entries with the same key: the outer
keys are pairwise distinct and so are the keys of every inner dict. -/
abbrev StoreWF (store : LinkStore) : Prop :=
  (store.map Prod.fst).Nodup ∧ ∀ p ∈ store, (p.2.map Prod.fst).Nodup

/-! ### Retention pruning (`_save_persisted_data`, direct-links part) -/

/-- `max_age = 7 * 24 * 3600` seconds (7 days). -/
def maxAge : Int := 7 * 24 * 3600

/-- The inner loop of the save-time cleanup: keep a half-edge iff
`now_ts - last_seen <= max_age`. -/
def pruneConnections (conns : Links) (now : Int) : Links :=
  conns.filter fun p => now - p.2.last_seen ≤ maxAge

/-- The direct-links cleanup in `_save_persisted_data`: prune every
connection dict and drop source nodes whose dict became empty. -/
def savePrune (store : LinkStore) (now : Int) : LinkStore :=
  (store.map fun p => (p.1, pruneConnections p.2 now)).filter fun p => !p.2.isEmpty

/-! ### Basic lemmas on the association-list operations -/

theorem alookup_setIn (k k' : String) (v : α) (m : List (String × α)) :
    alookup k' (setIn k v m) = if k' = k then some v else alookup k' m := by
  induction m with
  | nil =>
      by_cases h : k' = k <;> simp [setIn, alookup, h]
  | cons p rest ih =>
      obtain ⟨k₀, v₀⟩ := p
      by_cases hk : k = k₀
      · subst hk
        by_cases h : k' = k <;> simp [setIn, alookup, h]
      · by_cases h : k' = k₀
        · subst h
          simp [setIn, alookup, hk, Ne.symm hk, ih]
        · simp [setIn, alookup, hk, h, ih]

/-- The updated edge written by `_record_direct_link`. -/
def bumpEdge (old : Option LinkEdge) (ts : Int) : LinkEdge :=
  match old with
  | some e => { last_seen := ts, count := e.count + 1 }
  | none => { last_seen := ts, count := 1 }

theorem findLink_recordDirectLink (store : LinkStore) (a b x y : String) (ts : Int) :
    findLink (recordDirectLink store a b ts) x y =
      if x = a then
        (if y = b then some (bumpEdge (findLink store a b) ts) else findLink store a y)
      else findLink store x y := by
  unfold recordDirectLink findLink
  by_cases hx : x = a
  · subst hx
    rcases hab : alookup x store with _ | links
    · by_cases hy : y = b <;>
        rcases hob : alookup b ([] : Links) with _ | e <;>
          simp_all [alookup_setIn, alookup, bumpEdge]
    · rcases hob : alookup b links with _ | e <;>
        by_cases hy : y = b <;>
          simp_all [alookup_setIn, bumpEdge]
  · rcases hob : alookup b ((alookup a store).getD []) with _ | e <;>
      simp_all [alookup_setIn]

theorem alookup_mem {m : List (String × α)} (h : alookup k m = some v) : (k, v) ∈ m := by
  induction m with
  | nil => simp [alookup] at h
  | cons p rest ih =>
      obtain ⟨k₀, v₀⟩ := p
      by_cases hk : k = k₀
      · subst hk
        simp [alookup] at h
        simp [h]
      · simp [alookup, hk] at h
        simp [ih h]

theorem alookup_eq_none_of_not_mem {m : List (String × α)}
    (h : k ∉ m.map Prod.fst) : alookup k m = none := by
  induction m with
  | nil => rfl
  | cons p rest ih =>
      simp only [List.map_cons, List.mem_cons] at h
      push_neg at h
      simp [alookup, h.1, ih h.2]

/-! ### Symmetry is preserved by paired recording -/

theorem symm_recordBoth {s : LinkStore} (hS : Symm s) (a b : String) (ts : Int) :
    Symm (recordDirectLink (recordDirectLink s a b ts) b a ts) := by
  intro x y
  simp only [findLink_recordDirectLink]
  by_cases hxb : x = b <;> by_cases hya : y = a <;>
    by_cases hxa : x = a <;> by_cases hyb : y = b <;>
      simp_all [hS x y, hS a b, hS a y, hS x a, hS b y, hS x b]

theorem symm_recordPairs (nodes : List String) (ts : Int) :
    ∀ s : LinkStore, Symm s → Symm (recordPairs s nodes ts) := by
  induction nodes with
  | nil => intro s h; simpa [recordPairs] using h
  | cons a rest ih =>
      intro s h
      cases rest with
      | nil => simpa [recordPairs] using h
      | cons b rest' =>
          rw [recordPairs]
          exact ih _ (symm_recordBoth h (strLower a) (strLower b) ts)

theorem symm_processRxLogData {s : LinkStore} (hS : Symm s)
    (nodes : List String) (ts : Int) : Symm (processRxLogData s nodes ts) := by
  unfold processRxLogData
  split
  · exact hS
  · exact symm_recordPairs nodes ts s hS

/-! ### Characterizing lookups after pruning -/

theorem alookup_filter_of_nodup {conns : List (String × α)} (p : String × α → Bool)
    (hnd : (conns.map Prod.fst).Nodup) (b : String) :
    alookup b (conns.filter p) =
      match alookup b conns with
      | none => none
      | some e => if p (b, e) then some e else none := by
  induction conns with
  | nil => rfl
  | cons q rest ih =>
      obtain ⟨k₀, v₀⟩ := q
      simp only [List.map_cons, List.nodup_cons] at hnd
      by_cases hb : b = k₀
      · subst hb
        by_cases hp : p (b, v₀)
        · simp [List.filter_cons, hp, alookup]
        · have hnone : alookup b (rest.filter p) = none := by
            apply alookup_eq_none_of_not_mem
            intro hmem
            obtain ⟨q, hq, hfst⟩ := List.mem_map.mp hmem
            exact hnd.1 (List.mem_map.mpr ⟨q, List.mem_of_mem_filter hq, hfst⟩)
          simp [List.filter_cons, hp, alookup, hnone]
      · by_cases hp : p (k₀, v₀) <;>
          simp [List.filter_cons, hp, alookup, hb, ih hnd.2]

theorem savePrune_keys_subset (store : LinkStore) (now : Int) :
    (savePrune store now).map Prod.fst ⊆ store.map Prod.fst := by
  intro x hx
  simp only [savePrune, List.mem_map] at hx
  obtain ⟨q, hq, rfl⟩ := hx
  have hq' := List.mem_of_mem_filter hq
  simp only [List.mem_map] at hq'
  obtain ⟨r, hr, rfl⟩ := hq'
  exact List.mem_map.mpr ⟨r, hr, rfl⟩

theorem alookup_savePrune {store : LinkStore}
    (hnd : (store.map Prod.fst).Nodup) (now : Int) (a : String) :
    alookup a (savePrune store now) =
      match alookup a store with
      | none => none
      | some conns =>
          if (pruneConnections conns now).isEmpty then none
          else some (pruneConnections conns now) := by
  induction store with
  | nil => rfl
  | cons q rest ih =>
      obtain ⟨k₀, conns₀⟩ := q
      simp only [List.map_cons, List.nodup_cons] at hnd
      have hsp : savePrune ((k₀, conns₀) :: rest) now =
          if (pruneConnections conns₀ now).isEmpty then savePrune rest now
          else (k₀, pruneConnections conns₀ now) :: savePrune rest now := by
        by_cases he : (pruneConnections conns₀ now).isEmpty <;>
          simp [savePrune, List.filter_cons, he]
      rw [hsp]
      by_cases ha : a = k₀
      · subst ha
        by_cases he : (pruneConnections conns₀ now).isEmpty
        · rw [if_pos he]
          have hnone : alookup a (savePrune rest now) = none := by
            apply alookup_eq_none_of_not_mem
            intro hmem
            exact hnd.1 (savePrune_keys_subset rest now hmem)
          simp [alookup, he, hnone]
        · rw [if_neg he]
          simp [alookup, he]
      · by_cases he : (pruneConnections conns₀ now).isEmpty
        · rw [if_pos he, ih hnd.2]
          simp [alookup, ha]
        · rw [if_neg he]
          simp [alookup, ha, ih hnd.2]

theorem findLink_savePrune {store : LinkStore} (hwf : StoreWF store)
    (now : Int) (a b : String) :
    findLink (savePrune store now) a b =
      match findLink store a b with
      | none => none
      | some e => if now - e.last_seen ≤ maxAge then some e else none := by
  unfold findLink
  rw [alookup_savePrune hwf.1]
  cases hA : alookup a store with
  | none => rfl
  | some conns =>
      have hin : (conns.map Prod.fst).Nodup := hwf.2 (a, conns) (alookup_mem hA)
      by_cases he : (pruneConnections conns now).isEmpty
      · simp only [if_pos he]
        cases hB : alookup b conns with
        | none => rfl
        | some e =>
            by_cases hk : now - e.last_seen ≤ maxAge
            · exfalso
              have hmem : (b, e) ∈ pruneConnections conns now :=
                List.mem_filter.mpr ⟨alookup_mem hB, by simpa using hk⟩
              rw [List.isEmpty_iff] at he
              simp [he] at hmem
            · simp [hk]
      · simp only [if_neg he]
        rw [pruneConnections, alookup_filter_of_nodup _ hin]
        cases hB : alookup b conns with
        | none => rfl
        | some e => by_cases hk : now - e.last_seen ≤ maxAge <;> simp [hk]

/-- Processing a sequence of path-trace events in arrival order. -/
def processEvents (store : LinkStore) (events : List (List String × Int)) : LinkStore :=
  events.foldl (fun st ev => processRxLogData st ev.1 ev.2) store

/-! ### Claim theorems -/

/-- C1: starting from a symmetric store, after processing any sequence of
path-trace events (each consecutive pair being recorded in both directions
by `_record_direct_link`), the link store is still symmetric: whenever
`direct_links[a][b]` exists, `direct_links[b][a]` exists with equal count
and last_seen. -/
theorem c1_link_store_symmetry (events : List (List String × Int))
    (s : LinkStore) (hS : Symm s) : Symm (processEvents s events) := by
  induction events generalizing s with
  | nil => simpa [processEvents] using hS
  | cons e rest ih =>
      have h1 : Symm (processRxLogData s e.1 e.2) := symm_processRxLogData hS e.1 e.2
      simpa [processEvents, List.foldl_cons] using ih _ h1

theorem c1_link_store_symmetry_witness :
    Symm (processEvents []
      [(["AA1111111111", "BB2222222222", "CC3333333333"], 1000), (["BB2222222222", "AA1111111111"], 2000)]) :=
  c1_link_store_symmetry _ [] (fun _ _ => rfl)

/-- C2: a path-trace event with fewer than 2 nodes leaves the store
unchanged; `_record_direct_link` inserts a half-edge with count 1 or
increments the count by 1, setting `last_seen` to the event time, and
touches no other half-edge; the concrete aa/bb/cc scenario: the first
event at t=1000 creates the four half-edges aa↔bb and bb↔cc with
count 1, a second identical event at t=2000 raises both to count 2 and
last_seen 2000, and no aa↔cc edge is ever created. -/
theorem c2_pathtrace_ingestion :
    (∀ (store : LinkStore) (nodes : List String) (ts : Int),
        nodes.length < 2 → processRxLogData store nodes ts = store) ∧
    (∀ (store : LinkStore) (a b : String) (ts : Int),
        findLink (recordDirectLink store a b ts) a b =
          some (bumpEdge (findLink store a b) ts) ∧
        (∀ x y, ¬(x = a ∧ y = b) →
          findLink (recordDirectLink store a b ts) x y = findLink store x y)) ∧
    (let ev : List String := ["aa1111111111", "bb2222222222", "cc3333333333"]
     let s1 := processRxLogData [] ev 1000
     let s2 := processRxLogData s1 ev 2000
     findLink s1 "aa1111111111" "bb2222222222" = some ⟨1000, 1⟩ ∧
     findLink s1 "bb2222222222" "aa1111111111" = some ⟨1000, 1⟩ ∧
     findLink s1 "bb2222222222" "cc3333333333" = some ⟨1000, 1⟩ ∧
     findLink s1 "cc3333333333" "bb2222222222" = some ⟨1000, 1⟩ ∧
     findLink s1 "aa1111111111" "cc3333333333" = none ∧
     findLink s1 "cc3333333333" "aa1111111111" = none ∧
     findLink s2 "aa1111111111" "bb2222222222" = some ⟨2000, 2⟩ ∧
     findLink s2 "bb2222222222" "aa1111111111" = some ⟨2000, 2⟩ ∧
     findLink s2 "bb2222222222" "cc3333333333" = some ⟨2000, 2⟩ ∧
     findLink s2 "cc3333333333" "bb2222222222" = some ⟨2000, 2⟩ ∧
     findLink s2 "aa1111111111" "cc3333333333" = none ∧
     findLink s2 "cc3333333333" "aa1111111111" = none) := by
  refine ⟨?_, ?_, ?_⟩
  · intro store nodes ts h
    unfold processRxLogData
    rw [if_pos h]
  · intro store a b ts
    constructor
    · rw [findLink_recordDirectLink]
      simp
    · intro x y hxy
      rw [findLink_recordDirectLink]
      by_cases hx : x = a
      · subst hx
        by_cases hy : y = b
        · exact absurd ⟨rfl, hy⟩ hxy
        · simp [hy]
      · simp [hx]
  · decide

theorem c2_pathtrace_ingestion_witness :
    (([] : List String).length < 2 ∧ processRxLogData [("x", [])] [] 7 = [("x", [])]) :=
  ⟨by decide, c2_pathtrace_ingestion.1 [("x", [])] [] 7 (by decide)⟩

/-- C3: after the 7-day retention pass of `_save_persisted_data`, no
surviving half-edge has `last_seen` older than `now` minus 7 days, every
source node with no remaining destinations is removed entirely, and a
symmetric store stays symmetric.  The hypothesis `StoreWF` is the
representation invariant of Python dicts (no duplicate keys). -/
theorem c3_prune_retention (store : LinkStore) (now : Int) (hwf : StoreWF store) :
    (∀ a b e, findLink (savePrune store now) a b = some e →
        now - e.last_seen ≤ maxAge) ∧
    (∀ a conns, alookup a (savePrune store now) = some conns → conns ≠ []) ∧
    (Symm store → Symm (savePrune store now)) := by
  refine ⟨?_, ?_, ?_⟩
  · intro a b e h
    rw [findLink_savePrune hwf] at h
    split at h
    · simp at h
    · split at h
      · rename_i hk
        injection h with h'
        subst h'
        exact hk
      · simp at h
  · intro a conns h
    rw [alookup_savePrune hwf.1] at h
    split at h
    · simp at h
    · split at h
      · simp at h
      · rename_i he
        injection h with h'
        subst h'
        intro hc
        rw [hc] at he
        simp at he
  · intro hS x y
    rw [findLink_savePrune hwf, findLink_savePrune hwf, hS x y]

theorem c3_prune_retention_witness :
    StoreWF [("aa", [("bb", ⟨1000, 1⟩), ("cc", ⟨2, 4⟩)]), ("bb", [("aa", ⟨1000, 1⟩)])] ∧
    (∀ a b e,
        findLink (savePrune
          [("aa", [("bb", ⟨1000, 1⟩), ("cc", ⟨2, 4⟩)]), ("bb", [("aa", ⟨1000, 1⟩)])]
          700000) a b = some e →
        700000 - e.last_seen ≤ maxAge) :=
  ⟨by decide,
   (c3_prune_retention
     [("aa", [("bb", ⟨1000, 1⟩), ("cc", ⟨2, 4⟩)]), ("bb", [("aa", ⟨1000, 1⟩)])]
     700000 (by decide)).1⟩

/-! ### Node Resolver (`_get_node_info`) and contact records -/

/-- One externally-provided contact record: the attributes of a
`binary_sensor.meshcore_*_contact` state as read by `_get_node_info` and
the export routines.  `entity_id` is the state's entity id; every other
field is an attribute, `none` meaning the attribute is absent
(`pubkey_pre` stands for the `pubkey_prefix` attribute). -/
structure Contact where
  entity_id : String
  pubkey_pre : Option String
  adv_name : Option String
  adv_lat : Option Rat
  latitude : Option Rat
  adv_lon : Option Rat
  longitude : Option Rat
  node_type_str : Option String
  last_advert : Option Int
deriving DecidableEq

/-- The entity filter used everywhere: the id starts with
`binary_sensor.meshcore_` and contains `_contact`. -/
def isContactEntity (c : Contact) : Bool :=
  strStarts c.entity_id "binary_sensor.meshcore_" && strContains c.entity_id "_contact"

/-- The record returned by `_get_node_info`. -/
structure NodeInfo where
  name : String
  lat : Rat
  lon : Rat
  pubkey : String
  node_type : String
  last_advert : Int
deriving DecidableEq

/-- The body of the scan loop of `_get_node_info`: does this contact
record yield a match for the given identity `pfx`, and if so which one?
A match needs the entity filter, a non-empty lower-cased `pubkey_prefix`
starting with the lower-cased `pfx`, and truthy coordinates after the
`adv_lat`/`latitude` (resp. `adv_lon`/`longitude`) fallback chain. -/
def contactMatch (pfx : String) (c : Contact) : Option NodeInfo :=
  if isContactEntity c then
    let pubkey := strLower (c.pubkey_pre.getD "")
    if pubkey ≠ "" ∧ strStarts pubkey (strLower pfx) then
      let lat := pyOrQ c.adv_lat c.latitude
      let lon := pyOrQ c.adv_lon c.longitude
      if qTruthy lat ∧ qTruthy lon then
        some { name := c.adv_name.getD "Unknown"
               lat := lat.getD 0
               lon := lon.getD 0
               pubkey := pubkey
               node_type := strLower (c.node_type_str.getD "Unknown")
               last_advert := c.last_advert.getD 0 }
      else none
    else none
  else none

/-- The `matches` list built by `_get_node_info`, in provider order. -/
def candidates (pfx : String) (contacts : List Contact) : List NodeInfo :=
  contacts.filterMap (contactMatch pfx)

/-- One step of taking the maximum by `last_advert`, keeping the earlier
record on ties. -/
def pickStep (best x : NodeInfo) : NodeInfo :=
  if best.last_advert < x.last_advert then x else best

/-- Models `xs.sort(key=lambda x: x["last_advert"], reverse=True)` followed
by `xs[0]`: Python's sort is stable, so the head of the descending-sorted
list is the first element of `xs` attaining the maximal `last_advert`,
which is what this fold computes. -/
def pickFirstMax : List NodeInfo → Option NodeInfo
  | [] => none
  | m :: rest => some (rest.foldl pickStep m)

/-- `_get_node_info(pubkey_prefix)` over a given contact list: no match
is a miss, a unique match is returned directly, and among several matches
repeaters are preferred, then the latest `last_advert`. -/
def getNodeInfo (pfx : String) (contacts : List Contact) : Option NodeInfo :=
  match candidates pfx contacts with
  | [] => none
  | [m] => some m
  | ms =>
      let reps := ms.filter fun m => strContains m.node_type "repeater"
      if !reps.isEmpty then pickFirstMax reps else pickFirstMax ms

/-- The pool the multi-match disambiguation draws from: the repeater
candidates when any exist, otherwise all candidates. -/
def resolvePool (pfx : String) (contacts : List Contact) : List NodeInfo :=
  let ms := candidates pfx contacts
  let reps := ms.filter fun m => strContains m.node_type "repeater"
  if !reps.isEmpty then reps else ms

/-- The fold behind `pickFirstMax` returns the first element attaining the
maximal `last_advert`: the input splits as `l1 ++ r :: l2` with everything
before `r` strictly smaller and everything after it no larger. -/
theorem foldl_pickStep_decomp (rest : List NodeInfo) :
    ∀ m0 : NodeInfo, ∃ l1 l2,
      m0 :: rest = l1 ++ (rest.foldl pickStep m0) :: l2 ∧
      (∀ x ∈ l1, x.last_advert < (rest.foldl pickStep m0).last_advert) ∧
      (∀ x ∈ l2, x.last_advert ≤ (rest.foldl pickStep m0).last_advert) := by
  induction rest with
  | nil =>
      intro m0
      exact ⟨[], [], by simp, by simp, by simp⟩
  | cons y rest' ih =>
      intro m0
      rw [List.foldl_cons]
      by_cases hlt : m0.last_advert < y.last_advert
      · have hstep : pickStep m0 y = y := by simp [pickStep, hlt]
        rw [hstep]
        obtain ⟨l1, l2, hdec, h1, h2⟩ := ih y
        have hy : y.last_advert ≤ (rest'.foldl pickStep y).last_advert := by
          have hmem : y ∈ l1 ++ (rest'.foldl pickStep y) :: l2 := by
            rw [← hdec]; simp
          rcases List.mem_append.mp hmem with hy1 | hy2
          · exact le_of_lt (h1 y hy1)
          · rcases List.mem_cons.mp hy2 with heq | hy3
            · exact le_of_eq (congrArg NodeInfo.last_advert heq)
            · exact h2 y hy3
        refine ⟨m0 :: l1, l2, ?_, ?_, h2⟩
        · rw [List.cons_append, ← hdec]
        · intro x hx
          rcases List.mem_cons.mp hx with heq | hx'
          · rw [heq]; exact lt_of_lt_of_le hlt hy
          · exact h1 x hx'
      · have hstep : pickStep m0 y = m0 := by simp [pickStep, hlt]
        rw [hstep]
        obtain ⟨l1, l2, hdec, h1, h2⟩ := ih m0
        cases l1 with
        | nil =>
            simp only [List.nil_append] at hdec
            injection hdec with hm0 hrest
            refine ⟨[], y :: l2, ?_, by simp, ?_⟩
            · simp only [List.nil_append]
              rw [← hm0, ← hrest]
            · intro x hx
              rcases List.mem_cons.mp hx with heq | hx'
              · rw [heq, ← hm0]; exact not_lt.mp hlt
              · exact h2 x hx'
        | cons a l1' =>
            simp only [List.cons_append] at hdec
            injection hdec with ha hrest
            refine ⟨m0 :: y :: l1', l2, ?_, ?_, h2⟩
            · simp only [List.cons_append]
              exact congrArg (fun t => m0 :: y :: t) hrest
            · have hm0lt : m0.last_advert < (rest'.foldl pickStep m0).last_advert := by
                have := h1 a (List.mem_cons_self a l1')
                rwa [← ha] at this
              intro x hx
              rcases List.mem_cons.mp hx with heq | hx'
              · rw [heq]; exact hm0lt
              · rcases List.mem_cons.mp hx' with heq2 | hx'' 
                · rw [heq2]; exact lt_of_le_of_lt (not_lt.mp hlt) hm0lt
                · exact h1 x (List.mem_cons_of_mem a hx'')

/-- Multi-candidate selection of `_get_node_info`: whenever candidates
exist, the result is the first element of the disambiguation pool
(repeaters if any, else all candidates) with maximal `last_advert`. -/
theorem getNodeInfo_first_max (pfx : String) (contacts : List Contact)
    (hne : candidates pfx contacts ≠ []) :
    ∃ r l1 l2, getNodeInfo pfx contacts = some r ∧
      resolvePool pfx contacts = l1 ++ r :: l2 ∧
      (∀ x ∈ l1, x.last_advert < r.last_advert) ∧
      (∀ x ∈ l2, x.last_advert ≤ r.last_advert) := by
  cases hms : candidates pfx contacts with
  | nil => exact absurd hms hne
  | cons m rest =>
      cases rest with
      | nil =>
          have hg : getNodeInfo pfx contacts = some m := by
            simp [getNodeInfo, hms]
          by_cases hrep : strContains m.node_type "repeater"
          · exact ⟨m, [], [], hg, by simp [resolvePool, hms, hrep], by simp, by simp⟩
          · exact ⟨m, [], [], hg, by simp [resolvePool, hms, hrep], by simp, by simp⟩
      | cons m2 rest2 =>
          by_cases hre : ((m :: m2 :: rest2).filter
              fun x => strContains x.node_type "repeater").isEmpty
          · have hg : getNodeInfo pfx contacts =
                pickFirstMax (m :: m2 :: rest2) := by
              simp [getNodeInfo, hms, hre]
            have hp : resolvePool pfx contacts = m :: m2 :: rest2 := by
              simp [resolvePool, hms, hre]
            obtain ⟨l1, l2, hdec, h1, h2⟩ := foldl_pickStep_decomp (m2 :: rest2) m
            exact ⟨_, l1, l2, by rw [hg]; rfl, by rw [hp]; exact hdec, h1, h2⟩
          · cases hreps : (m :: m2 :: rest2).filter
                (fun x => strContains x.node_type "repeater") with
            | nil => rw [hreps] at hre; simp at hre
            | cons r0 rrest =>
                have hg : getNodeInfo pfx contacts = pickFirstMax (r0 :: rrest) := by
                  simp [getNodeInfo, hms, hre, hreps]
                have hp : resolvePool pfx contacts = r0 :: rrest := by
                  simp [resolvePool, hms, hre, hreps]
                obtain ⟨l1, l2, hdec, h1, h2⟩ := foldl_pickStep_decomp rrest r0
                exact ⟨_, l1, l2, by rw [hg]; rfl, by rw [hp]; exact hdec, h1, h2⟩

/-- C4: `_get_node_info` considers exactly the contact-sensor records whose
lower-cased identity is non-empty, starts with the lower-cased prefix and
has truthy coordinates (the `candidates` list, in provider enumeration
order); it returns not-found iff there is no candidate, a unique candidate
directly, and otherwise the first record of the repeater-preferred pool
attaining the maximal `last_advert` (ties resolved to the earliest record
in enumeration order). -/
theorem c4_node_resolver (pfx : String) (contacts : List Contact) :
    (getNodeInfo pfx contacts = none ↔ candidates pfx contacts = []) ∧
    (∀ m, candidates pfx contacts = [m] → getNodeInfo pfx contacts = some m) ∧
    (candidates pfx contacts ≠ [] →
      ∃ r l1 l2, getNodeInfo pfx contacts = some r ∧
        resolvePool pfx contacts = l1 ++ r :: l2 ∧
        (∀ x ∈ l1, x.last_advert < r.last_advert) ∧
        (∀ x ∈ l2, x.last_advert ≤ r.last_advert)) := by
  refine ⟨⟨?_, ?_⟩, ?_, getNodeInfo_first_max pfx contacts⟩
  · intro hnone
    by_contra hne
    obtain ⟨r, l1, l2, hg, _⟩ := getNodeInfo_first_max pfx contacts hne
    rw [hnone] at hg
    exact Option.noConfusion hg
  · intro hnil
    simp [getNodeInfo, hnil]
  · intro m hm
    simp [getNodeInfo, hm]

theorem c4_node_resolver_witness :
    candidates "AB"
      [⟨"binary_sensor.meshcore_n1_contact", some "AB1111111111", some "N1",
        some 1, none, some 2, none, some "Client", some 100⟩,
       ⟨"binary_sensor.meshcore_n2_contact", some "ab1111111111", some "N2",
        some 3, none, some 4, none, some "Client", some 100⟩] ≠ [] ∧
    (∃ r l1 l2,
      getNodeInfo "AB"
        [⟨"binary_sensor.meshcore_n1_contact", some "AB1111111111", some "N1",
          some 1, none, some 2, none, some "Client", some 100⟩,
         ⟨"binary_sensor.meshcore_n2_contact", some "ab1111111111", some "N2",
          some 3, none, some 4, none, some "Client", some 100⟩] = some r ∧
      resolvePool "AB"
        [⟨"binary_sensor.meshcore_n1_contact", some "AB1111111111", some "N1",
          some 1, none, some 2, none, some "Client", some 100⟩,
         ⟨"binary_sensor.meshcore_n2_contact", some "ab1111111111", some "N2",
          some 3, none, some 4, none, some "Client", some 100⟩] = l1 ++ r :: l2 ∧
      (∀ x ∈ l1, x.last_advert < r.last_advert) ∧
      (∀ x ∈ l2, x.last_advert ≤ r.last_advert)) :=
  ⟨by decide,
   (c4_node_resolver "AB"
      [⟨"binary_sensor.meshcore_n1_contact", some "AB1111111111", some "N1",
        some 1, none, some 2, none, some "Client", some 100⟩,
       ⟨"binary_sensor.meshcore_n2_contact", some "ab1111111111", some "N2",
        some 3, none, some 4, none, some "Client", some 100⟩]).2.2 (by decide)⟩

/-! ### Nodemap export (`_export_nodemap_data`) -/

/-- One entry of the nodemap artifact. -/
structure MapNode where
  name : String
  lat : Rat
  lon : Rat
  node_type : String
  age_hours : Rat
deriving DecidableEq

/-- The loop body of `_export_nodemap_data` for one contact state: skipped
unless the entity filter holds, `last_advert` is truthy and within the
threshold (`thr` is `threshold_sec`), and the coordinate fallback chain
yields truthy values. -/
def nodemapEntry (now thr : Int) (c : Contact) : Option MapNode :=
  if isContactEntity c then
    if iTruthy c.last_advert ∧ now - c.last_advert.getD 0 ≤ thr then
      let lat := pyOrQ c.adv_lat c.latitude
      let lon := pyOrQ c.adv_lon c.longitude
      if qTruthy lat ∧ qTruthy lon then
        some { name := c.adv_name.getD "Unknown"
               lat := lat.getD 0
               lon := lon.getD 0
               node_type := strLower (c.node_type_str.getD "Unknown")
               age_hours := ((now - c.last_advert.getD 0 : Int) : Rat) / 3600 }
      else none
    else none
  else none

/-- The `nodes` list written by `_export_nodemap_data`. -/
def exportNodemap (contacts : List Contact) (now thr : Int) : List MapNode :=
  contacts.filterMap (nodemapEntry now thr)

/-- C10: a contact whose effective latitude or longitude (after the
`adv_lat`/`latitude` resp. `adv_lon`/`longitude` fallback chain) is
missing or numerically zero is treated as having no coordinates: it is
never a `_get_node_info` candidate, never changes a resolution, and is
omitted from the nodemap export. -/
theorem c10_zero_coordinate_exclusion (c : Contact)
    (h : qTruthy (pyOrQ c.adv_lat c.latitude) = false ∨
         qTruthy (pyOrQ c.adv_lon c.longitude) = false) :
    (∀ pfx, contactMatch pfx c = none) ∧
    (∀ pfx contacts, candidates pfx (c :: contacts) = candidates pfx contacts) ∧
    (∀ pfx contacts, getNodeInfo pfx (c :: contacts) = getNodeInfo pfx contacts) ∧
    (∀ now thr, nodemapEntry now thr c = none) ∧
    (∀ contacts now thr,
        exportNodemap (c :: contacts) now thr = exportNodemap contacts now thr) := by
  have hco : ¬(qTruthy (pyOrQ c.adv_lat c.latitude) = true ∧
      qTruthy (pyOrQ c.adv_lon c.longitude) = true) := by
    rcases h with h | h <;> simp [h]
  have h1 : ∀ pfx, contactMatch pfx c = none := by
    intro pfx
    unfold contactMatch
    by_cases h0 : isContactEntity c
    · rw [if_pos h0]
      by_cases hg : strLower (c.pubkey_pre.getD "") ≠ "" ∧
          strStarts (strLower (c.pubkey_pre.getD "")) (strLower pfx)
      · rw [if_pos hg, if_neg hco]
      · rw [if_neg hg]
    · rw [if_neg h0]
  have h2 : ∀ pfx contacts, candidates pfx (c :: contacts) = candidates pfx contacts := by
    intro pfx contacts
    simp [candidates, List.filterMap_cons, h1 pfx]
  have h4 : ∀ now thr, nodemapEntry now thr c = none := by
    intro now thr
    unfold nodemapEntry
    by_cases h0 : isContactEntity c
    · rw [if_pos h0]
      by_cases hla : iTruthy c.last_advert ∧ now - c.last_advert.getD 0 ≤ thr
      · rw [if_pos hla, if_neg hco]
      · rw [if_neg hla]
    · rw [if_neg h0]
  refine ⟨h1, h2, ?_, h4, ?_⟩
  · intro pfx contacts
    unfold getNodeInfo
    rw [h2 pfx contacts]
  · intro contacts now thr
    simp [exportNodemap, List.filterMap_cons, h4 now thr]

theorem c10_zero_coordinate_exclusion_witness :
    (qTruthy (pyOrQ (Contact.mk "binary_sensor.meshcore_z_contact"
        (some "dd4444444444") (some "Z") (some 0) (some 0) (some 7) none
        (some "Client") (some 100)).adv_lat
        (Contact.mk "binary_sensor.meshcore_z_contact"
        (some "dd4444444444") (some "Z") (some 0) (some 0) (some 7) none
        (some "Client") (some 100)).latitude) = false ∨
     qTruthy (pyOrQ (Contact.mk "binary_sensor.meshcore_z_contact"
        (some "dd4444444444") (some "Z") (some 0) (some 0) (some 7) none
        (some "Client") (some 100)).adv_lon
        (Contact.mk "binary_sensor.meshcore_z_contact"
        (some "dd4444444444") (some "Z") (some 0) (some 0) (some 7) none
        (some "Client") (some 100)).longitude) = false) ∧
    nodemapEntry 1000 500 (Contact.mk "binary_sensor.meshcore_z_contact"
        (some "dd4444444444") (some "Z") (some 0) (some 0) (some 7) none
        (some "Client") (some 100)) = none :=
  ⟨by decide,
   (c10_zero_coordinate_exclusion _ (by decide)).2.2.2.1 1000 500⟩

/-! ### Direct-links export (`_export_directlinks_data`) -/

/-- One entry of the exported `links` list. -/
structure LinkOut where
  from_pubkey : String
  from_name : String
  from_lat : Rat
  from_lon : Rat
  to_pubkey : String
  to_name : String
  to_lat : Rat
  to_lon : Rat
  count : Nat
deriving DecidableEq

/-- One value of the exported `node_data` dict. -/
structure DLNode where
  name : String
  lat : Rat
  lon : Rat
  node_type : String
  link_count : Nat
deriving DecidableEq

/-- Python `tuple(sorted([a, b]))` for two strings. -/
def sortPair (a b : String) : String × String :=
  if strLt b a then (b, a) else (a, b)

/-- The dedup key of a link entry: the sorted endpoint pair. -/
def linkKey (l : LinkOut) : String × String :=
  sortPair l.from_pubkey l.to_pubkey

/-- The dedup loop of `_export_directlinks_data`: scan `link_data` for an
entry with the same unordered endpoint pair; if found, raise its count to
the maximum of the two, else append the new entry at the end. -/
def addLink (links : List LinkOut) (entry : LinkOut) : List LinkOut :=
  match links with
  | [] => [entry]
  | l :: rest =>
      if linkKey l = linkKey entry then
        { l with count := max l.count entry.count } :: rest
      else l :: addLink rest entry

/-- Increment the `link_count` of an existing `node_data` entry. -/
def bumpCount (k : String) : List (String × DLNode) → List (String × DLNode)
  | [] => []
  | (k', v) :: rest =>
      if k = k' then (k', { v with link_count := v.link_count + 1 }) :: rest
      else (k', v) :: bumpCount k rest

/-- The node-tracking step: create the `node_data` entry with
`link_count = 0` if absent, then increment its `link_count`. -/
def bumpNode (nd : List (String × DLNode)) (info : NodeInfo) : List (String × DLNode) :=
  bumpCount info.pubkey
    (if (alookup info.pubkey nd).isSome then nd
     else nd ++ [(info.pubkey,
       { name := info.name, lat := info.lat, lon := info.lon,
         node_type := info.node_type, link_count := 0 })])

/-- The inner-loop body of `_export_directlinks_data` for one half-edge:
skip if out of threshold or the destination does not resolve, else track
the source node and merge-or-append the link entry. -/
def processConn (contacts : List Contact) (thr now : Int) (aInfo : NodeInfo)
    (acc : List (String × DLNode) × List LinkOut) (conn : String × LinkEdge) :
    List (String × DLNode) × List LinkOut :=
  if now - conn.2.last_seen > thr then acc
  else
    match getNodeInfo conn.1 contacts with
    | none => acc
    | some bInfo =>
        (bumpNode acc.1 aInfo,
         addLink acc.2
           { from_pubkey := aInfo.pubkey, from_name := aInfo.name,
             from_lat := aInfo.lat, from_lon := aInfo.lon,
             to_pubkey := bInfo.pubkey, to_name := bInfo.name,
             to_lat := bInfo.lat, to_lon := bInfo.lon,
             count := conn.2.count })

/-- The outer-loop body for one source node of the Link Store: skipped
entirely when the source does not resolve. -/
def processSource (contacts : List Contact) (thr now : Int)
    (acc : List (String × DLNode) × List LinkOut) (src : String × Links) :
    List (String × DLNode) × List LinkOut :=
  match getNodeInfo src.1 contacts with
  | none => acc
  | some aInfo => src.2.foldl (processConn contacts thr now aInfo) acc

/-- `_export_directlinks_data`: the `node_data` dict and the deduplicated
`links` list built from the Link Store (`thr` is `threshold_sec`). -/
def exportDirectLinks (store : LinkStore) (contacts : List Contact)
    (thr now : Int) : List (String × DLNode) × List LinkOut :=
  store.foldl (processSource contacts thr now) ([], [])

/-- Unordered endpoint pairs in the exported links list are distinct. -/
abbrev DistinctKeys (links : List LinkOut) : Prop :=
  links.Pairwise fun u v => linkKey u ≠ linkKey v

theorem addLink_key_mem {links : List LinkOut} {entry v : LinkOut}
    (hv : v ∈ addLink links entry) :
    linkKey v = linkKey entry ∨ ∃ u ∈ links, linkKey v = linkKey u := by
  induction links with
  | nil =>
      simp [addLink] at hv
      exact Or.inl (by rw [hv])
  | cons l rest ih =>
      unfold addLink at hv
      by_cases hk : linkKey l = linkKey entry
      · rw [if_pos hk] at hv
        rcases List.mem_cons.mp hv with heq | hv'
        · right
          exact ⟨l, List.mem_cons_self l rest, by rw [heq]; rfl⟩
        · right
          exact ⟨v, List.mem_cons_of_mem l hv', rfl⟩
      · rw [if_neg hk] at hv
        rcases List.mem_cons.mp hv with heq | hv'
        · right
          exact ⟨l, List.mem_cons_self l rest, by rw [heq]⟩
        · rcases ih hv' with h | ⟨u, hu, hku⟩
          · exact Or.inl h
          · exact Or.inr ⟨u, List.mem_cons_of_mem l hu, hku⟩

theorem addLink_distinct {links : List LinkOut} (h : DistinctKeys links)
    (entry : LinkOut) : DistinctKeys (addLink links entry) := by
  induction links with
  | nil => simp [addLink, DistinctKeys]
  | cons l rest ih =>
      obtain ⟨h1, h2⟩ := List.pairwise_cons.mp h
      unfold addLink
      by_cases hk : linkKey l = linkKey entry
      · rw [if_pos hk]
        exact List.pairwise_cons.mpr ⟨fun v hv => h1 v hv, h2⟩
      · rw [if_neg hk]
        refine List.pairwise_cons.mpr ⟨?_, ih h2⟩
        intro v hv
        rcases addLink_key_mem hv with hke | ⟨u, hu, hku⟩
        · rw [hke]; exact hk
        · rw [hku]; exact h1 u hu

theorem processConn_distinct {contacts : List Contact} {thr now : Int}
    {aInfo : NodeInfo} {acc : List (String × DLNode) × List LinkOut}
    (h : DistinctKeys acc.2) (conn : String × LinkEdge) :
    DistinctKeys (processConn contacts thr now aInfo acc conn).2 := by
  unfold processConn
  split
  · exact h
  · split
    · exact h
    · exact addLink_distinct h _

theorem foldl_processConn_distinct (contacts : List Contact) (thr now : Int)
    (aInfo : NodeInfo) (conns : List (String × LinkEdge)) :
    ∀ acc : List (String × DLNode) × List LinkOut, DistinctKeys acc.2 →
      DistinctKeys (conns.foldl (processConn contacts thr now aInfo) acc).2 := by
  induction conns with
  | nil => intro acc h; simpa using h
  | cons conn rest ih =>
      intro acc h
      rw [List.foldl_cons]
      exact ih _ (processConn_distinct h conn)

theorem processSource_distinct {contacts : List Contact} {thr now : Int}
    {acc : List (String × DLNode) × List LinkOut}
    (h : DistinctKeys acc.2) (src : String × Links) :
    DistinctKeys (processSource contacts thr now acc src).2 := by
  unfold processSource
  split
  · exact h
  · exact foldl_processConn_distinct contacts thr now _ src.2 acc h

theorem exportDirectLinks_distinct_aux (contacts : List Contact)
    (thr now : Int) (store : LinkStore) :
    ∀ acc : List (String × DLNode) × List LinkOut, DistinctKeys acc.2 →
      DistinctKeys (store.foldl (processSource contacts thr now) acc).2 := by
  induction store with
  | nil => intro acc h; simpa using h
  | cons src rest ih =>
      intro acc h
      rw [List.foldl_cons]
      exact ih _ (processSource_distinct h src)

/-- C5: the exported links list never holds two entries for the same
unordered pair of resolved identities (so within-threshold half-edges of
one pair collapse to a single entry, merged by taking the maximal count),
and on the concrete scenario the half-edges (X to Y, count 3) and
(Y to X, count 5) export as exactly one link entry with count 5. -/
theorem c5_directlinks_dedup :
    (∀ (store : LinkStore) (contacts : List Contact) (thr now : Int),
        DistinctKeys (exportDirectLinks store contacts thr now).2) ∧
    (exportDirectLinks
        [("xx1111111111", [("yy2222222222", ⟨100, 3⟩)]),
         ("yy2222222222", [("xx1111111111", ⟨100, 5⟩)])]
        [⟨"binary_sensor.meshcore_x_contact", some "xx1111111111", some "X",
          some 1, none, some 2, none, some "Client", some 100⟩,
         ⟨"binary_sensor.meshcore_y_contact", some "yy2222222222", some "Y",
          some 3, none, some 4, none, some "Client", some 100⟩]
        604800 100).2 =
      [{ from_pubkey := "xx1111111111", from_name := "X", from_lat := 1,
         from_lon := 2, to_pubkey := "yy2222222222", to_name := "Y",
         to_lat := 3, to_lon := 4, count := 5 }] := by
  constructor
  · intro store contacts thr now
    exact exportDirectLinks_distinct_aux contacts thr now store ([], [])
      (by simp [DistinctKeys])
  · decide

/-! ### Greeting engine (`_process_new_contact`, `_send_greeting`) -/

/-- Outbound service-bus commands observable from the greeting path. -/
inductive Cmd where
  | sendChannelMessage (channel : Nat) (text : String)
  | notify (title message : String)
deriving DecidableEq

/-- Outcome of the `try` block of `_send_greeting`: both service calls
succeed, the first (`meshcore.send_channel_message`) raises, or the
second (`persistent_notification.create`) raises after the first command
already went out. -/
inductive SendOutcome where
  | success
  | failFirst
  | failSecond
deriving DecidableEq

/-- Python `set.add`. -/
def addGreeted (g : List String) (p : String) : List String :=
  if p ∈ g then g else g ++ [p]

/-- Python `set.discard`. -/
def discardGreeted (g : List String) (p : String) : List String :=
  g.filter fun x => x ≠ p

/-- The welcome template of `_send_greeting`. -/
def greetingText (myName name : String) : String :=
  "Welcome to the mesh " ++ name ++ "! 👋 from " ++ myName

/-- The notification body of `_send_greeting`. -/
def notifyText (name pubkey : String) : String :=
  "**" ++ name ++ "**\nPubkey: " ++ pubkey ++ "\n\nGreeted on Public channel"

/-- `_send_greeting(name, pubkey)`: optimistically add the pubkey to the
greeted set, emit the channel message and the notification; on an
exception from either call, log and remove the pubkey again (the
exception never escapes the handler). -/
def sendGreeting (myName name pubkey : String) (outcome : SendOutcome)
    (g : List String) (cmds : List Cmd) : List String × List Cmd :=
  let g1 := addGreeted g pubkey
  match outcome with
  | .success =>
      (g1, cmds ++ [Cmd.sendChannelMessage 0 (greetingText myName name),
                    Cmd.notify "🆕 New MeshCore Contact" (notifyText name pubkey)])
  | .failFirst => (discardGreeted g1 pubkey, cmds)
  | .failSecond =>
      (discardGreeted g1 pubkey,
       cmds ++ [Cmd.sendChannelMessage 0 (greetingText myName name)])

/-- Payload of a new-contact event. -/
structure NewContact where
  public_key : Option String
  adv_name : Option String
  type : Option Int
deriving DecidableEq

/-- `_process_new_contact(payload)`: ignore when greeting is disabled,
when the type code is 2, or when the truncated pubkey is empty or already
greeted; otherwise delegate to `_send_greeting`.  The state is the
greeted set together with the trace of emitted commands. -/
def processNewContact (greetEnabled : Bool) (myName : String)
    (ev : NewContact) (outcome : SendOutcome)
    (g : List String) (cmds : List Cmd) : List String × List Cmd :=
  if !greetEnabled then (g, cmds)
  else
    let pubkey := (ev.public_key.getD "").take 12
    let name := ev.adv_name.getD "Unknown"
    let node_type := ev.type.getD 0
    if node_type = 2 then (g, cmds)
    else if pubkey = "" ∨ pubkey ∈ g then (g, cmds)
    else sendGreeting myName name pubkey outcome g cmds

/-- Number of outbound `send_channel_message` commands in a trace. -/
def countSends (cmds : List Cmd) : Nat :=
  cmds.countP fun c =>
    match c with
    | Cmd.sendChannelMessage _ _ => true
    | _ => false

/-- Two greet-enabled client events whose pubkeys agree after truncation
to 12 characters (verbatim), starting from a greeted set not containing
that identity, produce exactly one channel message: the first dispatch
adds the identity before sending and the second is ignored. -/
theorem greet_pair_single_send (g : List String) (myName : String)
    (ev1 ev2 : NewContact)
    (hk : (ev2.public_key.getD "").take 12 = (ev1.public_key.getD "").take 12)
    (hty1 : ev1.type.getD 0 ≠ 2) (hty2 : ev2.type.getD 0 ≠ 2)
    (hne : (ev1.public_key.getD "").take 12 ≠ "")
    (hg : (ev1.public_key.getD "").take 12 ∉ g) :
    countSends (processNewContact true myName ev2 .success
      (processNewContact true myName ev1 .success g []).1
      (processNewContact true myName ev1 .success g []).2).2 = 1 ∧
    processNewContact true myName ev2 .success
      (processNewContact true myName ev1 .success g []).1
      (processNewContact true myName ev1 .success g []).2 =
    (processNewContact true myName ev1 .success g []) := by
  have h1 : processNewContact true myName ev1 .success g [] =
      (g ++ [(ev1.public_key.getD "").take 12],
       [Cmd.sendChannelMessage 0 (greetingText myName (ev1.adv_name.getD "Unknown")),
        Cmd.notify "🆕 New MeshCore Contact"
          (notifyText (ev1.adv_name.getD "Unknown")
            ((ev1.public_key.getD "").take 12))]) := by
    simp [processNewContact, hty1, hne, hg, sendGreeting, addGreeted]
  have hmem : (ev2.public_key.getD "").take 12 ∈
      g ++ [(ev1.public_key.getD "").take 12] := by
    rw [hk]; simp
  have h2 : processNewContact true myName ev2 .success
      (g ++ [(ev1.public_key.getD "").take 12])
      [Cmd.sendChannelMessage 0 (greetingText myName (ev1.adv_name.getD "Unknown")),
       Cmd.notify "🆕 New MeshCore Contact"
         (notifyText (ev1.adv_name.getD "Unknown")
           ((ev1.public_key.getD "").take 12))] =
      (g ++ [(ev1.public_key.getD "").take 12],
       [Cmd.sendChannelMessage 0 (greetingText myName (ev1.adv_name.getD "Unknown")),
        Cmd.notify "🆕 New MeshCore Contact"
          (notifyText (ev1.adv_name.getD "Unknown")
            ((ev1.public_key.getD "").take 12))]) := by
    simp [processNewContact, hty2, hmem]
  rw [h1, h2]
  refine ⟨?_, rfl⟩
  simp [countSends]

/-- C6 counterexample: with the identity already in the greeted set, two
identical client new-contact events (greeting enabled, no failure)
produce zero channel messages, not exactly one, refuting the claim for
arbitrary greeted-set states. -/
theorem c6_greeting_dedup_counterexample :
    countSends (processNewContact true "Me"
      ⟨some "aabbccddeeff0011", some "N", some 1⟩ .success
      (processNewContact true "Me"
        ⟨some "aabbccddeeff0011", some "N", some 1⟩ .success
        ["aabbccddeeff"] []).1
      (processNewContact true "Me"
        ⟨some "aabbccddeeff0011", some "N", some 1⟩ .success
        ["aabbccddeeff"] []).2).2 ≠ 1 := by
  decide

/-- C6 (amended): for every greeted-set state in which the truncated
pubkey is not yet present and is non-empty, two client new-contact events
with the same pubkey (greeting enabled, no failure) yield exactly one
channel message; the first event adds the identity before sending and the
second is ignored, leaving the state unchanged. -/
theorem c6_greeting_dedup (g : List String) (myName : String)
    (ev : NewContact) (hty : ev.type.getD 0 ≠ 2)
    (hne : (ev.public_key.getD "").take 12 ≠ "")
    (hg : (ev.public_key.getD "").take 12 ∉ g) :
    countSends (processNewContact true myName ev .success
      (processNewContact true myName ev .success g []).1
      (processNewContact true myName ev .success g []).2).2 = 1 ∧
    processNewContact true myName ev .success
      (processNewContact true myName ev .success g []).1
      (processNewContact true myName ev .success g []).2 =
    (processNewContact true myName ev .success g []) :=
  greet_pair_single_send g myName ev ev rfl hty hty hne hg

theorem c6_greeting_dedup_witness :
    ((⟨some "ee5555555555", some "N", some 1⟩ : NewContact).type.getD 0 ≠ 2 ∧
     ((⟨some "ee5555555555", some "N", some 1⟩ : NewContact).public_key.getD "").take 12 ≠ "" ∧
     ((⟨some "ee5555555555", some "N", some 1⟩ : NewContact).public_key.getD "").take 12 ∉
       ([] : List String)) ∧
    countSends (processNewContact true "Me"
      (⟨some "ee5555555555", some "N", some 1⟩ : NewContact) .success
      (processNewContact true "Me"
        (⟨some "ee5555555555", some "N", some 1⟩ : NewContact) .success [] []).1
      (processNewContact true "Me"
        (⟨some "ee5555555555", some "N", some 1⟩ : NewContact) .success [] []).2).2 = 1 :=
  ⟨⟨by decide, by decide, by decide⟩,
   (c6_greeting_dedup [] "Me" ⟨some "ee5555555555", some "N", some 1⟩
     (by decide) (by decide) (by decide)).1⟩

/-- C7: if either outbound call of `_send_greeting` raises, the identity
is rolled back out of the greeted set, and a subsequent identical
new-contact event (this time succeeding) retries the greeting and emits
exactly one channel message.  The exception itself stays inside the
handler (the embedded `sendGreeting` is total). -/
theorem c7_greeting_rollback (myName name pubkey : String) (g : List String)
    (cmds : List Cmd) (outcome : SendOutcome) (hfail : outcome ≠ .success) :
    pubkey ∉ (sendGreeting myName name pubkey outcome g cmds).1 ∧
    (∀ ev : NewContact, (ev.public_key.getD "").take 12 = pubkey →
      pubkey ≠ "" → ev.type.getD 0 ≠ 2 →
      countSends (processNewContact true myName ev .success
        (sendGreeting myName name pubkey outcome g cmds).1 []).2 = 1) := by
  have habs0 : pubkey ∉ (sendGreeting myName name pubkey outcome g cmds).1 := by
    cases outcome with
    | success => exact absurd rfl hfail
    | failFirst =>
        intro hmem
        have h' := List.mem_filter.mp hmem
        simp at h'
    | failSecond =>
        intro hmem
        have h' := List.mem_filter.mp hmem
        simp at h'
  refine ⟨habs0, ?_⟩
  intro ev hk hne hty
  set g' := (sendGreeting myName name pubkey outcome g cmds).1 with hgdef
  have habs : (ev.public_key.getD "").take 12 ∉ g' := by
    rw [hk]; exact habs0
  have hne' : (ev.public_key.getD "").take 12 ≠ "" := by
    rw [hk]; exact hne
  simp [processNewContact, hty, hne', habs, sendGreeting, addGreeted,
    countSends, List.countP_cons]

theorem c7_greeting_rollback_witness :
    (SendOutcome.failFirst ≠ SendOutcome.success) ∧
    "ff6666666666" ∉ (sendGreeting "Me" "N" "ff6666666666" .failFirst ["aa"] []).1 :=
  ⟨by decide,
   (c7_greeting_rollback "Me" "N" "ff6666666666" ["aa"] [] .failFirst (by decide)).1⟩

/-- C8: the code only filters type-code 2.  A type-3 (room server)
new-contact event with a fresh pubkey does invoke the greeting workflow
and emits a channel message, contradicting the in-code comment stating
that room servers (type 3) are not greeted; the type-2 filter itself
works as claimed (state and trace unchanged). -/
theorem c8_nonclient_filter :
    countSends (processNewContact true "Me"
      ⟨some "aabbccddeeff0011", some "Room", some 3⟩ .success [] []).2 = 1 ∧
    processNewContact true "Me"
      ⟨some "aabbccddeeff0011", some "Rep", some 2⟩ .success [] [] = ([], []) :=
  ⟨by decide, by decide⟩

/-- C9 counterexample: the code never lower-cases the new-contact pubkey,
so two events whose pubkeys differ only in case ("AB..." vs "ab...") are
distinct identities and two channel messages go out, refuting the claimed
case-insensitive identity. -/
theorem c9_case_insensitivity_counterexample :
    countSends (processNewContact true "Me"
      ⟨some "ab1111111111", some "N", some 1⟩ .success
      (processNewContact true "Me"
        ⟨some "AB1111111111", some "N", some 1⟩ .success [] []).1
      (processNewContact true "Me"
        ⟨some "AB1111111111", some "N", some 1⟩ .success [] []).2).2 = 2 ∧
    countSends (processNewContact true "Me"
      ⟨some "ab1111111111", some "N", some 1⟩ .success
      (processNewContact true "Me"
        ⟨some "AB1111111111", some "N", some 1⟩ .success [] []).1
      (processNewContact true "Me"
        ⟨some "AB1111111111", some "N", some 1⟩ .success [] []).2).2 ≠ 1 :=
  ⟨by decide, by decide⟩

/-- C9 (amended): the pubkey is truncated to 12 characters and used
verbatim (case-sensitively); two client events whose pubkeys agree after
truncation, with greeting enabled, no failure, and the identity fresh and
non-empty, yield exactly one channel message. -/
theorem c9_pubkey_truncation (g : List String) (myName : String)
    (ev1 ev2 : NewContact)
    (hk : (ev2.public_key.getD "").take 12 = (ev1.public_key.getD "").take 12)
    (hty1 : ev1.type.getD 0 ≠ 2) (hty2 : ev2.type.getD 0 ≠ 2)
    (hne : (ev1.public_key.getD "").take 12 ≠ "")
    (hg : (ev1.public_key.getD "").take 12 ∉ g) :
    countSends (processNewContact true myName ev2 .success
      (processNewContact true myName ev1 .success g []).1
      (processNewContact true myName ev1 .success g []).2).2 = 1 :=
  (greet_pair_single_send g myName ev1 ev2 hk hty1 hty2 hne hg).1

theorem c9_pubkey_truncation_witness :
    (((⟨some "cd7777777777yy", some "N2", some 1⟩ : NewContact).public_key.getD "").take 12 =
      ((⟨some "cd7777777777xx", some "N1", some 1⟩ : NewContact).public_key.getD "").take 12) ∧
    countSends (processNewContact true "Me"
      (⟨some "cd7777777777yy", some "N2", some 1⟩ : NewContact) .success
      (processNewContact true "Me"
        (⟨some "cd7777777777xx", some "N1", some 1⟩ : NewContact) .success [] []).1
      (processNewContact true "Me"
        (⟨some "cd7777777777xx", some "N1", some 1⟩ : NewContact) .success [] []).2).2 = 1 :=
  ⟨by decide,
   c9_pubkey_truncation [] "Me"
     ⟨some "cd7777777777xx", some "N1", some 1⟩
     ⟨some "cd7777777777yy", some "N2", some 1⟩
     (by decide) (by decide) (by decide) (by decide) (by decide)⟩
